import Mathlib

/-!
Verification of the predictive scaling decision engine of `k8s-llm-monitor`
(`src/monitor/auto_scaler.py`), shallowly embedded in Lean 4.

Floating-point values of the Python code (request rates, thresholds,
confidences, timestamps) are modelled as rationals; replica counts are
integers.  The sklearn `LinearRegression` fit over indices `0..k-1` is
the exact ordinary-least-squares closed form, with `none` standing for a
degenerate fit (the code's `except` fallback).  Python's built-in `int()`
conversion, which truncates toward zero, is modelled by `pyTrunc`.
-/

/-- One metric observation, as in the `MetricData` dataclass. -/
structure MetricData where
  timestamp : ℚ
  service : String
  cpu_usage : ℚ
  memory_usage : ℚ
  request_rate : ℚ
  response_time : ℚ
deriving DecidableEq, Repr

/-- Output of one policy evaluation, as in the `ScalingDecision` dataclass. -/
structure ScalingDecision where
  service : String
  current_replicas : ℤ
  target_replicas : ℤ
  reason : String
  confidence : ℚ
  timestamp : ℚ
deriving DecidableEq, Repr

/-- The scaling-relevant part of `ScalingConfig` (`config.py`). -/
structure ScalingConfig where
  scale_threshold : ℚ
  min_replicas : ℤ
  max_replicas : ℤ
deriving DecidableEq, Repr

/-- Python's built-in `int()` on a real value: truncation toward zero. -/
def pyTrunc (q : ℚ) : ℤ := if 0 ≤ q then ⌊q⌋ else ⌈q⌉

/-- Python's `l[-n:]`: the most recent `n` elements (all of them if shorter). -/
def takeLast (n : ℕ) (l : List α) : List α := l.drop (l.length - n)

/-- The history update at the top of `_predict_load`: extend the stored
history with the new batch, then keep only the last 1000 data points. -/
def recordHistory (history batch : List MetricData) : List MetricData :=
  takeLast 1000 (history ++ batch)

/-- Pandas `df["request_rate"].iloc[-1]`: request rate of the last sample
(0 for an empty frame, which the code never reaches in that branch). -/
def lastRate (l : List MetricData) : ℚ :=
  match l.getLast? with
  | some m => m.request_rate
  | none => 0

/-- Ordinary-least-squares line of `y` against indices `0..k-1`, evaluated at
index `k`: the `LinearRegression().fit(X, y); model.predict([[k]])[0]` step of
`_predict_load`.  `none` models a degenerate fit (the `except` branch). -/
def linearPredictNext (y : List ℚ) : Option ℚ :=
  let n : ℚ := y.length
  let xs : List ℚ := (List.range y.length).map (fun i => (i : ℚ))
  let sx := xs.sum
  let sy := y.sum
  let sxx := (xs.map (fun x => x * x)).sum
  let sxy := ((xs.zip y).map (fun p => p.1 * p.2)).sum
  let den := n * sxx - sx * sx
  if den = 0 then none
  else
    let slope := (n * sxy - sx * sy) / den
    let intercept := (sy - slope * sx) / n
    some (intercept + slope * n)

/-- The forecast of `_predict_load`, given the already-updated history
`recordHistory history batch` (the method mutates the stored history first and
then forecasts from it).  Branches follow the source: fewer than 10 recorded
samples returns the last batch sample's rate (0 for an empty batch); otherwise
the most recent 30 samples are fitted, with a sub-5-sample guard and a
fallback to the last recorded rate on fit failure; a successful fit is
clamped to be non-negative. -/
def predictLoad (history batch : List MetricData) : ℚ :=
  if (recordHistory history batch).length < 10 then
    match batch.getLast? with
    | some m => m.request_rate
    | none => 0
  else if (takeLast 30 (recordHistory history batch)).length < 5 then
    lastRate (recordHistory history batch)
  else
    match linearPredictNext
        ((takeLast 30 (recordHistory history batch)).map MetricData.request_rate) with
    | some p => max 0 p
    | none => lastRate (recordHistory history batch)

/-- Method `_calculate_target_replicas`: scale-up pressure above the threshold,
then the min/max limits exactly as applied in the source (first the `max`
with `min_replicas`, then the `min` with `max_replicas`). -/
def calculateTargetReplicas (cfg : ScalingConfig) (predicted_load : ℚ)
    (current_replicas : ℤ) : ℤ :=
  min cfg.max_replicas (max cfg.min_replicas
    (if cfg.scale_threshold < predicted_load then
      max (current_replicas + 1)
        (pyTrunc ((current_replicas : ℚ) * (predicted_load / cfg.scale_threshold)))
    else
      current_replicas))

/-- Population variance (`np.var`): mean of squared deviations from the mean. -/
def popVariance (l : List ℚ) : ℚ :=
  let n : ℚ := l.length
  let mean := l.sum / n
  ((l.map (fun x => (x - mean) ^ 2)).sum) / n

/-- Method `_calculate_confidence`: fixed 0.3 below 5 samples, otherwise
`max(0.1, min(0.9, 1 / (1 + variance)))` over the last up-to-10 rates. -/
def calculateConfidence (metrics : List MetricData) : ℚ :=
  if metrics.length < 5 then 3/10
  else
    max (1/10) (min (9/10)
      (1 / (1 + popVariance ((takeLast 10 metrics).map MetricData.request_rate))))

/-- Method `_should_scale`: the cooldown gate as implemented — only the confidence
threshold is checked; no last-applied-time state exists in the class. -/
def shouldScale (decision : ScalingDecision) : Bool :=
  decide ((1 : ℚ)/2 < decision.confidence)

/-- The decision's reason string, `f"Predicted load: {prediction:.2f}"`
(numeric formatting abstracted). -/
def predictionReason (prediction : ℚ) : String :=
  "Predicted load: " ++ toString prediction

/-- The `ScalingDecision` value constructed inside `predict_and_scale` for one
pass: current and computed target replicas, the reason string carrying the
forecast, the confidence of the collected batch, and the current clock. -/
def mkDecision (cfg : ScalingConfig) (service : String)
    (history batch : List MetricData) (current : ℤ) (now : ℚ) : ScalingDecision :=
  { service := service
    current_replicas := current
    target_replicas := calculateTargetReplicas cfg (predictLoad history batch) current
    reason := predictionReason (predictLoad history batch)
    confidence := calculateConfidence batch
    timestamp := now }

/-- Method `predict_and_scale`, with the collaborator results injected: the
collected batch, the orchestrator's current replica count, and the clock.
Returns the updated history and the decision returned to the caller
(`none` on empty batch, unknown replica count, a no-op target, or a gate
rejection). -/
def predictAndScale (cfg : ScalingConfig) (service : String)
    (history batch : List MetricData) (currentReplicas : Option ℤ) (now : ℚ) :
    List MetricData × Option ScalingDecision :=
  if batch.isEmpty then (history, none)
  else
    match currentReplicas with
    | none => (recordHistory history batch, none)
    | some current =>
      if calculateTargetReplicas cfg (predictLoad history batch) current ≠ current then
        if shouldScale (mkDecision cfg service history batch current now) then
          (recordHistory history batch, some (mkDecision cfg service history batch current now))
        else (recordHistory history batch, none)
      else (recordHistory history batch, none)

/-- A sample carrying only a timestamp and a request rate, as produced by
`_parse_prometheus_data` (cpu, memory and response time are placeholders). -/
def sampleAt (t rate : ℚ) : MetricData :=
  { timestamp := t, service := "api-gateway", cpu_usage := 0, memory_usage := 0,
    request_rate := rate, response_time := 0 }

theorem mem_of_getLast_eq_some {α : Type} {l : List α} {a : α}
    (h : l.getLast? = some a) : a ∈ l := by
  obtain ⟨hne, rfl⟩ := List.mem_getLast?_eq_getLast (Option.mem_def.mpr h)
  exact List.getLast_mem hne

theorem lastRate_nonneg {l : List MetricData} (h : ∀ m ∈ l, 0 ≤ m.request_rate) :
    0 ≤ lastRate l := by
  unfold lastRate
  split
  · next m heq => exact h m (mem_of_getLast_eq_some heq)
  · exact le_refl 0

/-- A concrete five-sample batch with constant request rate 1, used to
instantiate theorems at inputs where every branch condition is decidable. -/
def steadyBatch : List MetricData :=
  [sampleAt 0 1, sampleAt 1 1, sampleAt 2 1, sampleAt 3 1, sampleAt 4 1]

/-- Claim C1: for a non-negative replica count, a positive threshold and
ordered limits, the target is the scale-up formula
`max(current + 1, floor(current * forecast / threshold))` above the
threshold and `current` otherwise, clamped into
`[min_replicas, max_replicas]`. -/
theorem scaling_policy_formula (cfg : ScalingConfig) (forecast : ℚ) (current : ℤ)
    (hc : 0 ≤ current) (ht : 0 < cfg.scale_threshold)
    (hmm : cfg.min_replicas ≤ cfg.max_replicas) :
    calculateTargetReplicas cfg forecast current =
      max cfg.min_replicas (min cfg.max_replicas
        (if cfg.scale_threshold < forecast
         then max (current + 1) ⌊(current : ℚ) * forecast / cfg.scale_threshold⌋
         else current)) := by
  unfold calculateTargetReplicas
  rw [min_max_distrib_left, min_eq_right hmm]
  congr 1
  split
  · next h =>
      congr 1
      have hq : (0 : ℚ) ≤ (current : ℚ) * (forecast / cfg.scale_threshold) := by
        apply mul_nonneg
        · exact_mod_cast hc
        · exact div_nonneg (le_of_lt (lt_trans ht h)) (le_of_lt ht)
      rw [pyTrunc, if_pos hq, mul_div_assoc]
  · rfl

theorem scaling_policy_formula_witness :
    calculateTargetReplicas ⟨1/2, 2, 20⟩ 1 3 =
      max 2 (min 20 (if (1:ℚ)/2 < 1
        then max (3 + 1) ⌊(3 : ℚ) * 1 / (1/2)⌋ else 3)) :=
  scaling_policy_formula ⟨1/2, 2, 20⟩ 1 3 (by decide) (by norm_num) (by decide)

/-- Claim C2, counterexample to the unqualified statement: with limits
`[1, 5]`, threshold 1/2 and forecast 1 (strict scale-up pressure), a current
count of 5 is already at the maximum, and the returned target is 5, not at
least `current + 1 = 6`: the clamp cancels the guaranteed increase. -/
theorem scale_up_clamp_cex :
    ((1:ℚ)/2 < 1) ∧
    calculateTargetReplicas ⟨1/2, 1, 5⟩ 1 5 < 5 + 1 := by
  constructor
  · norm_num
  · norm_num [calculateTargetReplicas, pyTrunc]

/-- Claim C2 (amended): when the forecast exceeds the threshold and
`current + 1` does not exceed `max_replicas`, the returned target is at
least `current + 1`. -/
theorem scale_up_min_increase (cfg : ScalingConfig) (forecast : ℚ) (current : ℤ)
    (h : cfg.scale_threshold < forecast)
    (hmax : current + 1 ≤ cfg.max_replicas) :
    current + 1 ≤ calculateTargetReplicas cfg forecast current := by
  unfold calculateTargetReplicas
  rw [if_pos h]
  exact le_min hmax (le_trans (le_max_left _ _) (le_max_right _ _))

theorem scale_up_min_increase_witness :
    ((1:ℚ)/2 < 1) ∧ ((3 : ℤ) + 1 ≤ 20) ∧
    (3 : ℤ) + 1 ≤ calculateTargetReplicas ⟨1/2, 2, 20⟩ 1 3 :=
  ⟨by norm_num, by decide,
   scale_up_min_increase ⟨1/2, 2, 20⟩ 1 3 (by norm_num) (by decide)⟩

/-- Claim C3: the cooldown gate as implemented never consults any
last-applied timestamp — the class stores none — so a high-confidence
decision is approved even one time unit after a previous action, far inside
a 300-unit cooldown period: the time-based cooldown the specification
requires is not enforced by the code. -/
theorem cooldown_gate_ignores_time :
    shouldScale ⟨"api-gateway", 2, 3, "Predicted load: 1.00", 4/5, 10⟩ = true ∧
    ((10 : ℚ) - 9 < 300) := by
  constructor
  · norm_num [shouldScale]
  · norm_num

/-- Claim C4: the gate approves a decision exactly when its confidence is
strictly greater than 0.5. -/
theorem confidence_gate_iff (d : ScalingDecision) :
    shouldScale d = true ↔ (1:ℚ)/2 < d.confidence := by
  simp [shouldScale]

/-- Claim C5, counterexample to the statement as written: with a stored
history of one sample of rate 5 and an empty incoming batch, the recorded
history has fewer than 10 samples and its most recent sample has rate 5, yet
the forecast is 0 — the code reads the last sample of the new batch, not of
the recorded history. -/
theorem cold_start_cex :
    (recordHistory [sampleAt 0 5] []).length < 10 ∧
    (recordHistory [sampleAt 0 5] []).getLast? = some (sampleAt 0 5) ∧
    (sampleAt 0 5).request_rate = 5 ∧
    predictLoad [sampleAt 0 5] [] = 0 := by
  refine ⟨?_, ?_, rfl, ?_⟩
  · simp [recordHistory, takeLast]
  · simp [recordHistory, takeLast]
  · simp [predictLoad, recordHistory, takeLast]

/-- Claim C5 (amended): when the recorded history after appending the batch
has fewer than 10 samples, the forecast is the request rate of the most
recent sample of the incoming batch, and 0 when the batch is empty (even if
older history exists). -/
theorem cold_start_forecast (history batch : List MetricData)
    (h : (recordHistory history batch).length < 10) :
    predictLoad history batch =
      match batch.getLast? with
      | some m => m.request_rate
      | none => 0 := by
  unfold predictLoad
  simp [h]

theorem cold_start_forecast_witness :
    (recordHistory [] [sampleAt 0 7]).length < 10 ∧
    predictLoad [] [sampleAt 0 7] =
      (match ([sampleAt 0 7] : List MetricData).getLast? with
       | some m => m.request_rate
       | none => 0) :=
  ⟨by simp [recordHistory, takeLast],
   cold_start_forecast [] [sampleAt 0 7] (by simp [recordHistory, takeLast])⟩

/-- Claim C6: on histories and batches of non-negative request rates the
forecast is non-negative in every branch — cold start, regression (clamped
at 0), and both fallbacks — and the forecaster is a total function. -/
theorem forecast_nonneg (history batch : List MetricData)
    (h1 : ∀ m ∈ history, 0 ≤ m.request_rate)
    (h2 : ∀ m ∈ batch, 0 ≤ m.request_rate) :
    0 ≤ predictLoad history batch := by
  have hall : ∀ m ∈ recordHistory history batch, 0 ≤ m.request_rate := by
    intro m hm
    rcases List.mem_append.mp (List.mem_of_mem_drop hm) with h | h
    · exact h1 m h
    · exact h2 m h
  unfold predictLoad
  split_ifs with hlen hrec
  · cases heq : batch.getLast? with
    | some m =>
        simp only [heq]
        exact h2 m (mem_of_getLast_eq_some heq)
    | none => simp [heq]
  · exact lastRate_nonneg hall
  · cases hp : linearPredictNext
        ((takeLast 30 (recordHistory history batch)).map MetricData.request_rate) with
    | some p =>
        simp only [hp]
        exact le_max_left 0 p
    | none =>
        simp only [hp]
        exact lastRate_nonneg hall

theorem forecast_nonneg_witness : 0 ≤ predictLoad [] [sampleAt 0 3] :=
  forecast_nonneg [] [sampleAt 0 3] (by simp)
    (by
      intro m hm
      simp only [List.mem_singleton] at hm
      subst hm
      norm_num [sampleAt])

/-- Claim C7: after recording any batch onto any stored history, the
resulting history has at most 1000 entries, its length is exactly the
minimum of the combined length and 1000, and it is a suffix of the appended
sequence — i.e. precisely the most recent samples in their original order;
as the statement is universal over the prior history, every pass preserves
the bound and the ordering. -/
theorem history_cap_and_order (history batch : List MetricData) :
    (recordHistory history batch).length ≤ 1000 ∧
    (recordHistory history batch).length = min (history.length + batch.length) 1000 ∧
    recordHistory history batch <:+ history ++ batch := by
  refine ⟨?_, ?_, List.drop_suffix _ _⟩
  · simp [recordHistory, takeLast]
    omega
  · simp [recordHistory, takeLast]
    omega

/-- Claim C8: fewer than 5 samples yield the fixed confidence 0.3; with at
least 5 samples the confidence is `1 / (1 + variance)` of the request rates
of the most recent up-to-10 samples clamped into `[0.1, 0.9]`, hence always
within `[0.1, 0.9]` in that case. -/
theorem confidence_policy (metrics : List MetricData) :
    (metrics.length < 5 → calculateConfidence metrics = 3/10) ∧
    (5 ≤ metrics.length →
      calculateConfidence metrics =
        max (1/10) (min (9/10)
          (1 / (1 + popVariance ((takeLast 10 metrics).map MetricData.request_rate)))) ∧
      1/10 ≤ calculateConfidence metrics ∧ calculateConfidence metrics ≤ 9/10) := by
  constructor
  · intro h
    simp [calculateConfidence, h]
  · intro h
    have hne : ¬ metrics.length < 5 := not_lt.mpr h
    refine ⟨by rw [calculateConfidence, if_neg hne], ?_, ?_⟩
    · rw [calculateConfidence, if_neg hne]
      exact le_max_left _ _
    · rw [calculateConfidence, if_neg hne]
      exact max_le (by norm_num) (min_le_left _ _)

theorem confidence_policy_witness :
    calculateConfidence [sampleAt 0 1] = 3/10 ∧
    1/10 ≤ calculateConfidence steadyBatch ∧
    calculateConfidence steadyBatch ≤ 9/10 :=
  ⟨(confidence_policy [sampleAt 0 1]).1 (by decide),
   ((confidence_policy steadyBatch).2 (by decide)).2.1,
   ((confidence_policy steadyBatch).2 (by decide)).2.2⟩

/-- Claim C9: a pass whose computed target equals the current replica count
returns no decision, and any decision a pass does return has a target
different from its current replica count. -/
theorem no_op_no_decision (cfg : ScalingConfig) (service : String)
    (history batch : List MetricData) (current : ℤ) (now : ℚ) :
    (calculateTargetReplicas cfg (predictLoad history batch) current = current →
      (predictAndScale cfg service history batch (some current) now).2 = none) ∧
    (∀ d, (predictAndScale cfg service history batch (some current) now).2 = some d →
      d.target_replicas ≠ d.current_replicas) := by
  constructor
  · intro heq
    unfold predictAndScale
    dsimp only
    split_ifs with hb h1 h2 <;> first | rfl | exact absurd heq h1
  · intro d hd
    unfold predictAndScale at hd
    dsimp only at hd
    split_ifs at hd with hb h1 h2
    all_goals simp at hd
    subst hd
    simpa [mkDecision] using h1

theorem no_op_no_decision_witness :
    (predictAndScale ⟨1/2, 1, 10⟩ "api-gateway" [] [sampleAt 0 (1/4)] (some 2) 0).2
      = none ∧
    (mkDecision ⟨1/2, 1, 10⟩ "api-gateway" [] steadyBatch 2 0).target_replicas ≠
      (mkDecision ⟨1/2, 1, 10⟩ "api-gateway" [] steadyBatch 2 0).current_replicas :=
  ⟨(no_op_no_decision ⟨1/2, 1, 10⟩ "api-gateway" [] [sampleAt 0 (1/4)] 2 0).1
      (by norm_num [predictLoad, recordHistory, takeLast, calculateTargetReplicas,
            pyTrunc, sampleAt]),
   (no_op_no_decision ⟨1/2, 1, 10⟩ "api-gateway" [] steadyBatch 2 0).2
      (mkDecision ⟨1/2, 1, 10⟩ "api-gateway" [] steadyBatch 2 0)
      (by
        have hne : calculateTargetReplicas ⟨1/2, 1, 10⟩ (predictLoad [] steadyBatch) 2
            ≠ 2 := by
          norm_num [predictLoad, recordHistory, takeLast, steadyBatch,
            calculateTargetReplicas, pyTrunc, sampleAt]
        have hgate : shouldScale (mkDecision ⟨1/2, 1, 10⟩ "api-gateway" []
            steadyBatch 2 0) = true := by
          unfold shouldScale
          refine decide_eq_true ?_
          show (1:ℚ)/2 < calculateConfidence steadyBatch
          norm_num [calculateConfidence, steadyBatch, popVariance, takeLast, sampleAt]
        unfold predictAndScale
        dsimp only
        rw [if_neg (by simp [steadyBatch]), if_pos hne, if_pos hgate])⟩

/-- Claim C10: when the current replica count lies outside
`[min_replicas, max_replicas]` (with ordered limits) and the forecast does
not exceed the threshold, the pass emits a decision whose target is the
nearest bound — `min_replicas` when current is below it, `max_replicas` when
above — and therefore changes the replica count despite the absence of
scale-up pressure (given a non-empty batch and a confidence above the
gate's threshold, which the emission path requires). -/
theorem out_of_range_forces_decision (cfg : ScalingConfig) (service : String)
    (history batch : List MetricData) (current : ℤ) (now : ℚ)
    (hmm : cfg.min_replicas ≤ cfg.max_replicas)
    (hf : predictLoad history batch ≤ cfg.scale_threshold)
    (hout : current < cfg.min_replicas ∨ cfg.max_replicas < current)
    (hb : batch ≠ [])
    (hconf : (1:ℚ)/2 < calculateConfidence batch) :
    ∃ d, (predictAndScale cfg service history batch (some current) now).2 = some d ∧
      d.target_replicas =
        (if current < cfg.min_replicas then cfg.min_replicas else cfg.max_replicas) ∧
      d.target_replicas ≠ current ∧
      d.current_replicas = current := by
  have htarget : calculateTargetReplicas cfg (predictLoad history batch) current =
      (if current < cfg.min_replicas then cfg.min_replicas else cfg.max_replicas) := by
    unfold calculateTargetReplicas
    rw [if_neg (not_lt.mpr hf)]
    rcases hout with h | h
    · rw [if_pos h, max_eq_left (le_of_lt h), min_eq_right hmm]
    · have hmc : ¬ current < cfg.min_replicas :=
        not_lt.mpr (le_trans hmm (le_of_lt h))
      rw [if_neg hmc, max_eq_right (le_trans hmm (le_of_lt h)), min_eq_left (le_of_lt h)]
  have hne : calculateTargetReplicas cfg (predictLoad history batch) current ≠ current := by
    rw [htarget]
    rcases hout with h | h
    · rw [if_pos h]
      exact ne_of_gt h
    · rw [if_neg (not_lt.mpr (le_trans hmm (le_of_lt h)))]
      exact ne_of_lt h
  have hgate : shouldScale (mkDecision cfg service history batch current now) = true := by
    unfold shouldScale
    exact decide_eq_true hconf
  refine ⟨mkDecision cfg service history batch current now, ?_, ?_, ?_, rfl⟩
  · unfold predictAndScale
    dsimp only
    rw [if_neg (by simp [List.isEmpty_iff, hb]), if_pos hne, if_pos hgate]
  · simpa [mkDecision] using htarget
  · simpa [mkDecision] using hne

theorem out_of_range_forces_decision_witness :
    ∃ d, (predictAndScale ⟨1, 2, 20⟩ "api-gateway" [] steadyBatch (some 1) 0).2
        = some d ∧
      d.target_replicas = (if (1:ℤ) < 2 then (2:ℤ) else 20) ∧
      d.target_replicas ≠ 1 ∧
      d.current_replicas = 1 :=
  out_of_range_forces_decision ⟨1, 2, 20⟩ "api-gateway" [] steadyBatch 1 0
    (by decide)
    (by norm_num [predictLoad, recordHistory, takeLast, steadyBatch, sampleAt])
    (Or.inl (by decide))
    (by simp [steadyBatch])
    (by norm_num [calculateConfidence, steadyBatch, popVariance, takeLast, sampleAt])
